import Mathlib

/-!
Verification of the DPFS local-mirror file server (fuser mirror backend).

The development shallowly embeds the translation layer of the server: the
inode table, the lookup-count bookkeeping (`forget_one`, `do_lookup`) and
the request handlers for lookup, open, create, read/write submission and
directory reading.  Syscall outcomes (openat, fstatat, io_submit, the
directory stream) are supplied as explicit oracle values, so every handler
becomes a pure function from a server state and an oracle to a result
state plus the wire reply fields it fills in.  Components of the
repository whose implementation is not part of the mirror backend (the
inode-table container and the wire-reply encoders) are modelled from the
specification and marked as such in their doc comments.
-/

namespace DPFS

/-! ### errno and flag constants (Linux) -/

def ENOENT : Nat := 2
def EIO : Nat := 5
def EWOULDBLOCK : Nat := 11
def ENOMEM : Nat := 12
def EACCES : Nat := 13
def EINVAL : Nat := 22
def ENOTSUP : Nat := 95

def FUSE_ROOT_ID : Nat := 1

/-! ### Inode records and the inode table -/

/-- The per-inode record of the server (`struct inode` of the mirror
backend): backing inode number, backing device, the path-only backing
descriptor (`fd > 0` live, `-ENOENT` the unlinked sentinel), the kernel
lookup count, the open-handle count and the generation counter.  The
record mutex is not a datum; the handlers below are sequentialised. -/
structure Inode where
  src_ino : Nat
  src_dev : Nat
  fd : Int
  nlookup : Nat
  nopen : Nat
  generation : Nat
deriving DecidableEq

/-- The inode table, keyed by backing inode number.  The record address
that the C code uses as the wire node-id is modelled by the key itself:
records never move while present. -/
abbrev InodeTable := List (Nat × Inode)

/-- Look a record up by its backing inode number. -/
def findIno (t : InodeTable) (k : Nat) : Option Inode :=
  (t.find? (fun p => p.1 == k)).map (fun p => p.2)

/-- Erase the record with the given backing inode number
(`inode_table_erase`). -/
def eraseIno (t : InodeTable) (k : Nat) : InodeTable :=
  t.filter (fun p => p.1 != k)

/-- Replace the record stored under the given key (in the C code this is
mutation through the record pointer). -/
def updateIno (t : InodeTable) (k : Nat) (i : Inode) : InodeTable :=
  t.map (fun p => if p.1 == k then (k, i) else p)

/-- Modelled from the spec: `inode_table_getsert` (the inode-table
container lives outside the mirror backend sources).  Per the
specification's `get_or_insert(src_ino)`, it returns the existing record
if present, else constructs a fresh zeroed one (`nlookup = 0`,
`generation = 0`, fd unset). -/
def getsert (t : InodeTable) (k : Nat) : Inode × InodeTable :=
  match findIno t k with
  | some i => (i, t)
  | none => (⟨0, 0, 0, 0, 0, 0⟩, (k, ⟨0, 0, 0, 0, 0, 0⟩) :: t)

/-- The lookup count of the record under key `k`, zero when absent. -/
def nlookupOf (t : InodeTable) (k : Nat) : Nat :=
  ((findIno t k).map Inode.nlookup).getD 0

theorem findIno_cons (a : Nat) (i : Inode) (t : InodeTable) (k : Nat) :
    findIno ((a, i) :: t) k = if a = k then some i else findIno t k := by
  by_cases h : a = k <;> simp [findIno, List.find?_cons, h]

theorem findIno_eraseIno_self (t : InodeTable) (k : Nat) :
    findIno (eraseIno t k) k = none := by
  induction t with
  | nil => rfl
  | cons p rest ih =>
    rcases p with ⟨a, i⟩
    by_cases h : a = k
    · simpa [eraseIno, List.filter_cons, h] using ih
    · simpa [eraseIno, List.filter_cons, h, findIno_cons] using ih

theorem findIno_updateIno_self (t : InodeTable) (k : Nat) (i i' : Inode)
    (h : findIno t k = some i) :
    findIno (updateIno t k i') k = some i' := by
  induction t with
  | nil => simp [findIno] at h
  | cons p rest ih =>
    rcases p with ⟨a, j⟩
    simp only [updateIno, List.map_cons, beq_iff_eq] at ih ⊢
    by_cases hp : a = k
    · simp [hp, findIno_cons]
    · rw [findIno_cons, if_neg hp] at h
      simpa [hp, findIno_cons] using ih h

theorem findIno_updateIno_of_ne (t : InodeTable) (k k' : Nat) (i' : Inode)
    (h : k ≠ k') :
    findIno (updateIno t k i') k' = findIno t k' := by
  induction t with
  | nil => rfl
  | cons p rest ih =>
    rcases p with ⟨a, j⟩
    simp only [updateIno, List.map_cons, beq_iff_eq] at ih ⊢
    by_cases hp : a = k
    · subst hp
      simp [findIno_cons, h, ih]
    · by_cases hk : a = k'
      · subst hk
        simp [findIno_cons, hp]
      · simp [hp, findIno_cons, hk, ih]

/-! ### forget -/

/-- Result of `forget_one`: the server may halt (protocol-fatal negative
lookup count) or continue with an updated table. -/
inductive ForgetRes
  | halt
  | ok (t : InodeTable)
deriving DecidableEq

/-- `forget_one(f, ino, n)` of the mirror backend.  The outer `Option` is
`none` when the node-id does not resolve to a table-resident record (a
dangling handle, outside the behaviour the code defines). -/
def forget_one (t : InodeTable) (ino n : Nat) : Option ForgetRes :=
  match findIno t ino with
  | none => none
  | some i =>
    if n > i.nlookup then some .halt
    else
      if i.nlookup - n = 0 then some (.ok (eraseIno t ino))
      else some (.ok (updateIno t ino { i with nlookup := i.nlookup - n }))

/-- Evaluation of `forget_one` on a table-resident record. -/
theorem forget_one_eval (t : InodeTable) (ino n : Nat) (i : Inode)
    (h : findIno t ino = some i) :
    (n > i.nlookup → forget_one t ino n = some .halt) ∧
    (n ≤ i.nlookup →
      ∃ t', forget_one t ino n = some (.ok t') ∧
        (i.nlookup - n = 0 → findIno t' ino = none) ∧
        (i.nlookup - n ≠ 0 →
          findIno t' ino = some { i with nlookup := i.nlookup - n })) := by
  constructor
  · intro hgt
    simp [forget_one, h, hgt]
  · intro hle
    by_cases hz : i.nlookup - n = 0
    · refine ⟨eraseIno t ino, ?_, fun _ => findIno_eraseIno_self t ino,
        fun hc => absurd hz hc⟩
      simp [forget_one, h, Nat.not_lt.mpr hle, hz]
    · refine ⟨updateIno t ino { i with nlookup := i.nlookup - n }, ?_,
        fun hc => absurd hc hz,
        fun _ => findIno_updateIno_self t ino i _ h⟩
      simp [forget_one, h, Nat.not_lt.mpr hle, hz]

/-- C1: for every `forget(handle, n)` on a table-resident inode: if `n`
exceeds the record's current `nlookup` the server halts; otherwise
`nlookup` decreases by exactly `n`, and if the result is `0` the record
is erased from the inode table. -/
theorem forget_one_spec (t : InodeTable) (ino n : Nat) (i : Inode)
    (h : findIno t ino = some i) :
    (n > i.nlookup → forget_one t ino n = some .halt) ∧
    (n ≤ i.nlookup →
      ∃ t', forget_one t ino n = some (.ok t') ∧
        (i.nlookup - n = 0 → findIno t' ino = none) ∧
        (i.nlookup - n ≠ 0 →
          findIno t' ino = some { i with nlookup := i.nlookup - n })) :=
  forget_one_eval t ino n i h

/-- Witness for C1: a concrete record with `nlookup = 2`: forgetting 3
halts, forgetting 2 erases. -/
theorem forget_one_spec_witness :
    (forget_one [(42, ⟨42, 1, 5, 2, 0, 0⟩)] 42 3 = some .halt) ∧
    (∃ t', forget_one [(42, ⟨42, 1, 5, 2, 0, 0⟩)] 42 2 = some (.ok t') ∧
      findIno t' 42 = none) := by
  have h : findIno [(42, (⟨42, 1, 5, 2, 0, 0⟩ : Inode))] 42 =
      some ⟨42, 1, 5, 2, 0, 0⟩ := by decide
  refine ⟨(forget_one_spec _ 42 3 _ h).1 (by decide), ?_⟩
  obtain ⟨t', h1, h2, _⟩ := (forget_one_spec _ 42 2 _ h).2 (by decide)
  exact ⟨t', h1, h2 rfl⟩

/-! ### do_lookup -/

/-- Outcome of a modelled syscall: a value, or failure with an errno. -/
inductive SysRes (α : Type)
  | ok (a : α)
  | err (errno : Nat)
deriving DecidableEq

/-- The two stat fields `do_lookup` inspects. -/
structure Stat where
  st_ino : Nat
  st_dev : Nat
deriving DecidableEq

/-- Oracle for the syscalls `do_lookup` performs: the `openat` of the name
under the parent, the `fstatat` of the new descriptor, and whether the
inode-table insert-or-get allocation succeeds (`inode_table_getsert`
returning non-NULL). -/
structure LookupEnv where
  openatRes : SysRes Nat
  fstatRes : SysRes Stat
  getsertOk : Bool
deriving DecidableEq

/-- What became of the descriptor `do_lookup` opened: never opened,
closed again before return, adopted into the inode record, or left open
without an owner at return. -/
inductive FdFate
  | notOpened
  | closed
  | adopted
  | leaked
deriving DecidableEq

/-- The `fuse_entry_param` fields the mirror backend fills in.  The
`double` timeouts are modelled as abstract ticks. -/
structure EntryParam where
  ino : Nat
  generation : Nat
  attr : Stat
  attr_timeout : Nat
  entry_timeout : Nat
deriving DecidableEq

/-- Server state a handler sees: the configured metadata timeout, the
device of the exported tree and the inode table. -/
structure Fuser where
  timeout : Nat
  src_dev : Nat
  inodes : InodeTable
deriving DecidableEq

/-- Result of `do_lookup`: the returned errno (0 on success), the filled
entry, the updated table, whether the table mutex `f->m` is still held at
return, and the fate of the freshly opened descriptor. -/
structure LookupOut where
  err : Nat
  e : EntryParam
  inodes : InodeTable
  tableLocked : Bool
  fate : FdFate
deriving DecidableEq

/-- `memset(e, 0, sizeof(*e))` followed by the two timeout writes at the
top of `do_lookup`. -/
def emptyEntry (f : Fuser) : EntryParam :=
  { ino := 0, generation := 0, attr := ⟨0, 0⟩,
    attr_timeout := f.timeout, entry_timeout := f.timeout }

/-- `do_lookup(f, parent, name, e)` of the mirror backend.  Each return
statement of the C function is one branch; `tableLocked` records whether
`pthread_mutex_lock(&f->m)` has been taken without a matching unlock on
that path, and `fate` records what happened to `newfd`. -/
def do_lookup (f : Fuser) (env : LookupEnv) : LookupOut :=
  let e0 := emptyEntry f
  match env.openatRes with
  | .err en =>
    { err := en, e := e0, inodes := f.inodes, tableLocked := false,
      fate := .notOpened }
  | .ok newfd =>
    match env.fstatRes with
    | .err en =>
      -- the fstatat-failure path closes newfd before returning
      { err := en, e := e0, inodes := f.inodes, tableLocked := false,
        fate := .closed }
    | .ok st =>
      let e1 := { e0 with attr := st }
      if st.st_dev ≠ f.src_dev then
        -- source: `return ENOTSUP;` with no close(newfd)
        { err := ENOTSUP, e := e1, inodes := f.inodes, tableLocked := false,
          fate := .leaked }
      else if st.st_ino = FUSE_ROOT_ID then
        -- source: `return EIO;` with no close(newfd)
        { err := EIO, e := e1, inodes := f.inodes, tableLocked := false,
          fate := .leaked }
      else
        -- pthread_mutex_lock(&f->m); i = inode_table_getsert(...)
        if ¬ env.getsertOk then
          -- source: `return ENOMEM;` with no unlock of f->m
          { err := ENOMEM, e := e1, inodes := f.inodes, tableLocked := true,
            fate := .leaked }
        else
          let gt := getsert f.inodes st.st_ino
          let i := gt.1
          let e2 := { e1 with ino := st.st_ino, generation := i.generation }
          if i.fd > 0 then
            -- existing inode: unlock f->m, nlookup++, close(newfd)
            { err := 0, e := e2,
              inodes := updateIno gt.2 st.st_ino
                { i with nlookup := i.nlookup + 1 },
              tableLocked := false, fate := .closed }
          else
            -- fresh or recycled inode: adopt newfd, unlock both
            { err := 0, e := e2,
              inodes := updateIno gt.2 st.st_ino
                { i with src_ino := st.st_ino, src_dev := st.st_dev,
                         nlookup := i.nlookup + 1, fd := (newfd : Int) },
              tableLocked := false, fate := .adopted }

/-- C10 (code bug): on the path where `inode_table_getsert` fails,
`do_lookup` returns `ENOMEM` while still holding the table mutex `f->m`;
the claim that every return path releases the mutex is false there. -/
theorem do_lookup_enomem_lock_leak (f : Fuser) (env : LookupEnv)
    (newfd : Nat) (st : Stat)
    (hopen : env.openatRes = .ok newfd) (hstat : env.fstatRes = .ok st)
    (hdev : st.st_dev = f.src_dev) (hroot : st.st_ino ≠ FUSE_ROOT_ID)
    (halloc : env.getsertOk = false) :
    (do_lookup f env).err = ENOMEM ∧ (do_lookup f env).tableLocked = true := by
  simp [do_lookup, hopen, hstat, hdev, hroot, halloc]

/-- Witness for C10 at a concrete state and oracle. -/
theorem do_lookup_enomem_lock_leak_witness :
    (do_lookup ⟨0, 1, []⟩ ⟨.ok 7, .ok ⟨42, 1⟩, false⟩).err = ENOMEM ∧
    (do_lookup ⟨0, 1, []⟩ ⟨.ok 7, .ok ⟨42, 1⟩, false⟩).tableLocked = true :=
  do_lookup_enomem_lock_leak ⟨0, 1, []⟩ ⟨.ok 7, .ok ⟨42, 1⟩, false⟩ 7 ⟨42, 1⟩
    rfl rfl (by decide) (by decide) rfl

/-! ### The lookup handler and its wire reply -/

/-- The `fuse_out_header` fields the handlers touch. -/
structure OutHeader where
  error : Int
  len : Nat
deriving DecidableEq

/-- The `fuse_entry_out` reply fields relevant to the handlers. -/
structure EntryOut where
  nodeid : Nat
  generation : Nat
  entry_timeout : Nat
  attr_timeout : Nat
  attr : Stat
deriving DecidableEq

/-- Modelled from the spec: `fuse_ll_reply_entry` (the wire-reply encoder
lives in the dpfs_fuse library, not under the mirror backend sources).
Per the specification it writes the entry parameters into the entry
reply struct and leaves the header error field untouched. -/
def fuse_ll_reply_entry (hdr : OutHeader) (e : EntryParam) :
    OutHeader × EntryOut :=
  (hdr, ⟨e.ino, e.generation, e.entry_timeout, e.attr_timeout, e.attr⟩)

/-- Result of the lookup handler: the reply header, the entry reply
buffer, the updated server state and the fate of the opened fd. -/
structure MirrorLookupOut where
  hdr : OutHeader
  entry : EntryOut
  f : Fuser
  fate : FdFate
deriving DecidableEq

/-- `fuser_mirror_lookup`.  `entry0` is the pre-existing contents of the
entry reply buffer (left untouched on the error path). -/
def fuser_mirror_lookup (f : Fuser) (hdr : OutHeader) (entry0 : EntryOut)
    (env : LookupEnv) : MirrorLookupOut :=
  let r := do_lookup f env
  let f' := { f with inodes := r.inodes }
  if r.err = ENOENT then
    let e := { r.e with attr_timeout := f.timeout, entry_timeout := f.timeout,
                        ino := 0, attr := { r.e.attr with st_ino := 0 } }
    let rep := fuse_ll_reply_entry hdr e
    { hdr := rep.1, entry := rep.2, f := f', fate := r.fate }
  else if r.err ≠ 0 then
    { hdr := { hdr with error := -(r.err : Int) }, entry := entry0,
      f := f', fate := r.fate }
  else
    let rep := fuse_ll_reply_entry hdr r.e
    { hdr := rep.1, entry := rep.2, f := f', fate := r.fate }

/-- C3 (code bug): when the stat of the newly opened child reports a
device different from the source root's, the lookup reply carries
`error = -ENOTSUP` and the inode table is unchanged — but the just-opened
descriptor is NOT closed (its fate is `leaked`, not `closed`): the
`return ENOTSUP;` path of `do_lookup` omits the `close(newfd)` that the
neighbouring failure path performs. -/
theorem lookup_mountpoint_enotsup_leak (f : Fuser) (hdr : OutHeader)
    (entry0 : EntryOut) (env : LookupEnv) (newfd : Nat) (st : Stat)
    (hopen : env.openatRes = .ok newfd) (hstat : env.fstatRes = .ok st)
    (hdev : st.st_dev ≠ f.src_dev) :
    (fuser_mirror_lookup f hdr entry0 env).hdr.error = -(ENOTSUP : Int) ∧
    (fuser_mirror_lookup f hdr entry0 env).f.inodes = f.inodes ∧
    (fuser_mirror_lookup f hdr entry0 env).fate = .leaked ∧
    (fuser_mirror_lookup f hdr entry0 env).fate ≠ .closed := by
  have hr : do_lookup f env =
      { err := ENOTSUP, e := { emptyEntry f with attr := st },
        inodes := f.inodes, tableLocked := false, fate := .leaked } := by
    simp [do_lookup, hopen, hstat, hdev]
  simp [fuser_mirror_lookup, hr, ENOTSUP, ENOENT]

/-- Witness for C3 at a concrete state and oracle. -/
theorem lookup_mountpoint_enotsup_leak_witness :
    (fuser_mirror_lookup ⟨0, 1, []⟩ ⟨0, 0⟩ ⟨0, 0, 0, 0, ⟨0, 0⟩⟩
      ⟨.ok 7, .ok ⟨42, 2⟩, true⟩).hdr.error = -(ENOTSUP : Int) ∧
    (fuser_mirror_lookup ⟨0, 1, []⟩ ⟨0, 0⟩ ⟨0, 0, 0, 0, ⟨0, 0⟩⟩
      ⟨.ok 7, .ok ⟨42, 2⟩, true⟩).f.inodes = [] ∧
    (fuser_mirror_lookup ⟨0, 1, []⟩ ⟨0, 0⟩ ⟨0, 0, 0, 0, ⟨0, 0⟩⟩
      ⟨.ok 7, .ok ⟨42, 2⟩, true⟩).fate = .leaked ∧
    (fuser_mirror_lookup ⟨0, 1, []⟩ ⟨0, 0⟩ ⟨0, 0, 0, 0, ⟨0, 0⟩⟩
      ⟨.ok 7, .ok ⟨42, 2⟩, true⟩).fate ≠ .closed :=
  lookup_mountpoint_enotsup_leak ⟨0, 1, []⟩ ⟨0, 0⟩ ⟨0, 0, 0, 0, ⟨0, 0⟩⟩
    ⟨.ok 7, .ok ⟨42, 2⟩, true⟩ 7 ⟨42, 2⟩ rfl rfl (by decide)

/-- C8: a lookup whose `openat` fails with `ENOENT` replies success
(header error unchanged, i.e. 0) with a negative entry: node-id 0 and
`entry_timeout` equal to the configured metadata timeout. -/
theorem lookup_negative_entry_spec (f : Fuser) (hdr : OutHeader)
    (entry0 : EntryOut) (env : LookupEnv)
    (hopen : env.openatRes = .err ENOENT) (hhdr : hdr.error = 0) :
    (fuser_mirror_lookup f hdr entry0 env).hdr.error = 0 ∧
    (fuser_mirror_lookup f hdr entry0 env).entry.nodeid = 0 ∧
    (fuser_mirror_lookup f hdr entry0 env).entry.entry_timeout = f.timeout ∧
    (fuser_mirror_lookup f hdr entry0 env).f.inodes = f.inodes := by
  have hr : do_lookup f env =
      { err := ENOENT, e := emptyEntry f, inodes := f.inodes,
        tableLocked := false, fate := .notOpened } := by
    simp [do_lookup, hopen]
  simp [fuser_mirror_lookup, hr, fuse_ll_reply_entry, hhdr]

/-- Witness for C8 at a concrete state and oracle. -/
theorem lookup_negative_entry_spec_witness :
    (fuser_mirror_lookup ⟨3, 1, []⟩ ⟨0, 0⟩ ⟨9, 9, 9, 9, ⟨9, 9⟩⟩
      ⟨.err ENOENT, .err 0, true⟩).hdr.error = 0 ∧
    (fuser_mirror_lookup ⟨3, 1, []⟩ ⟨0, 0⟩ ⟨9, 9, 9, 9, ⟨9, 9⟩⟩
      ⟨.err ENOENT, .err 0, true⟩).entry.nodeid = 0 ∧
    (fuser_mirror_lookup ⟨3, 1, []⟩ ⟨0, 0⟩ ⟨9, 9, 9, 9, ⟨9, 9⟩⟩
      ⟨.err ENOENT, .err 0, true⟩).entry.entry_timeout = 3 ∧
    (fuser_mirror_lookup ⟨3, 1, []⟩ ⟨0, 0⟩ ⟨9, 9, 9, 9, ⟨9, 9⟩⟩
      ⟨.err ENOENT, .err 0, true⟩).f.inodes = [] :=
  lookup_negative_entry_spec ⟨3, 1, []⟩ ⟨0, 0⟩ ⟨9, 9, 9, 9, ⟨9, 9⟩⟩
    ⟨.err ENOENT, .err 0, true⟩ rfl rfl

/-! ### Lookup idempotence (Scenario A) -/

theorem do_lookup_fresh (f : Fuser) (env : LookupEnv) (newfd k : Nat)
    (hk : findIno f.inodes k = none)
    (hopen : env.openatRes = .ok newfd)
    (hstat : env.fstatRes = .ok ⟨k, f.src_dev⟩)
    (halloc : env.getsertOk = true)
    (hroot : k ≠ FUSE_ROOT_ID) :
    do_lookup f env =
      { err := 0,
        e := { ino := k, generation := 0, attr := ⟨k, f.src_dev⟩,
               attr_timeout := f.timeout, entry_timeout := f.timeout },
        inodes := updateIno ((k, ⟨0, 0, 0, 0, 0, 0⟩) :: f.inodes) k
          ⟨k, f.src_dev, (newfd : Int), 1, 0, 0⟩,
        tableLocked := false, fate := .adopted } := by
  simp [do_lookup, hopen, hstat, halloc, hroot, getsert, hk, emptyEntry]

theorem do_lookup_existing (f : Fuser) (env : LookupEnv) (newfd k : Nat)
    (i : Inode) (hk : findIno f.inodes k = some i) (hfd : 0 < i.fd)
    (hopen : env.openatRes = .ok newfd)
    (hstat : env.fstatRes = .ok ⟨k, f.src_dev⟩)
    (halloc : env.getsertOk = true)
    (hroot : k ≠ FUSE_ROOT_ID) :
    do_lookup f env =
      { err := 0,
        e := { ino := k, generation := i.generation, attr := ⟨k, f.src_dev⟩,
               attr_timeout := f.timeout, entry_timeout := f.timeout },
        inodes := updateIno f.inodes k { i with nlookup := i.nlookup + 1 },
        tableLocked := false, fate := .closed } := by
  simp [do_lookup, hopen, hstat, halloc, hroot, getsert, hk, emptyEntry, hfd]

/-- C2: two successful lookups resolving to the same backing inode (the
second finding the record with a live fd) return the same node-id and
generation; the second lookup closes its just-opened descriptor and
increments `nlookup` by exactly one, and after two forgets with `n = 1`
the record is erased from the table. -/
theorem lookup_idempotent_spec (f : Fuser) (env1 env2 : LookupEnv)
    (fd1 fd2 k : Nat) (hk : findIno f.inodes k = none)
    (hroot : k ≠ FUSE_ROOT_ID) (hfd1 : 0 < fd1)
    (h1o : env1.openatRes = .ok fd1)
    (h1s : env1.fstatRes = .ok ⟨k, f.src_dev⟩)
    (h1a : env1.getsertOk = true)
    (h2o : env2.openatRes = .ok fd2)
    (h2s : env2.fstatRes = .ok ⟨k, f.src_dev⟩)
    (h2a : env2.getsertOk = true) :
    (do_lookup f env1).err = 0 ∧
    (do_lookup { f with inodes := (do_lookup f env1).inodes } env2).err = 0 ∧
    (do_lookup { f with inodes := (do_lookup f env1).inodes } env2).e.ino =
      (do_lookup f env1).e.ino ∧
    (do_lookup { f with inodes := (do_lookup f env1).inodes } env2).e.generation =
      (do_lookup f env1).e.generation ∧
    (do_lookup { f with inodes := (do_lookup f env1).inodes } env2).fate = .closed ∧
    nlookupOf (do_lookup { f with inodes := (do_lookup f env1).inodes } env2).inodes k =
      nlookupOf (do_lookup f env1).inodes k + 1 ∧
    ∃ t1 t2,
      forget_one
        (do_lookup { f with inodes := (do_lookup f env1).inodes } env2).inodes
        k 1 = some (.ok t1) ∧
      forget_one t1 k 1 = some (.ok t2) ∧
      findIno t2 k = none := by
  have e1 := do_lookup_fresh f env1 fd1 k hk h1o h1s h1a hroot
  have hcons : findIno ((k, (⟨0, 0, 0, 0, 0, 0⟩ : Inode)) :: f.inodes) k =
      some ⟨0, 0, 0, 0, 0, 0⟩ := by simp [findIno_cons]
  have hf1 : findIno (do_lookup f env1).inodes k =
      some ⟨k, f.src_dev, (fd1 : Int), 1, 0, 0⟩ := by
    rw [e1]
    exact findIno_updateIno_self _ k _ _ hcons
  have hfd1' : (0 : Int) < ((fd1 : Nat) : Int) := by exact_mod_cast hfd1
  have e2 := do_lookup_existing { f with inodes := (do_lookup f env1).inodes }
    env2 fd2 k ⟨k, f.src_dev, (fd1 : Int), 1, 0, 0⟩ hf1 hfd1' h2o h2s h2a hroot
  have hf2 : findIno (do_lookup { f with inodes := (do_lookup f env1).inodes }
      env2).inodes k = some ⟨k, f.src_dev, (fd1 : Int), 2, 0, 0⟩ := by
    rw [e2]
    exact findIno_updateIno_self _ k _ _ hf1
  refine ⟨by rw [e1], by rw [e2], by rw [e2, e1], by rw [e2, e1],
    by rw [e2], ?_, ?_⟩
  · simp [nlookupOf, hf1, hf2]
  · refine ⟨updateIno (do_lookup { f with inodes := (do_lookup f env1).inodes }
        env2).inodes k ⟨k, f.src_dev, (fd1 : Int), 1, 0, 0⟩, ?_⟩
    have hfg1 : forget_one (do_lookup { f with inodes :=
        (do_lookup f env1).inodes } env2).inodes k 1 =
        some (.ok (updateIno (do_lookup { f with inodes :=
          (do_lookup f env1).inodes } env2).inodes k
          ⟨k, f.src_dev, (fd1 : Int), 1, 0, 0⟩)) := by
      simp [forget_one, hf2]
    have hft1 : findIno (updateIno (do_lookup { f with inodes :=
        (do_lookup f env1).inodes } env2).inodes k
        ⟨k, f.src_dev, (fd1 : Int), 1, 0, 0⟩) k =
        some ⟨k, f.src_dev, (fd1 : Int), 1, 0, 0⟩ :=
      findIno_updateIno_self _ k _ _ hf2
    refine ⟨eraseIno (updateIno (do_lookup { f with inodes :=
        (do_lookup f env1).inodes } env2).inodes k
        ⟨k, f.src_dev, (fd1 : Int), 1, 0, 0⟩) k, hfg1, ?_, ?_⟩
    · simp [forget_one, hft1]
    · exact findIno_eraseIno_self _ k

/-- Witness for C2: the full Scenario A on a concrete empty table. -/
theorem lookup_idempotent_spec_witness :
    (do_lookup ⟨0, 1, []⟩ ⟨.ok 5, .ok ⟨42, 1⟩, true⟩).err = 0 ∧
    (do_lookup { Fuser.mk 0 1 [] with
        inodes := (do_lookup ⟨0, 1, []⟩ ⟨.ok 5, .ok ⟨42, 1⟩, true⟩).inodes }
      ⟨.ok 6, .ok ⟨42, 1⟩, true⟩).err = 0 ∧
    (do_lookup { Fuser.mk 0 1 [] with
        inodes := (do_lookup ⟨0, 1, []⟩ ⟨.ok 5, .ok ⟨42, 1⟩, true⟩).inodes }
      ⟨.ok 6, .ok ⟨42, 1⟩, true⟩).e.ino =
      (do_lookup ⟨0, 1, []⟩ ⟨.ok 5, .ok ⟨42, 1⟩, true⟩).e.ino ∧
    (do_lookup { Fuser.mk 0 1 [] with
        inodes := (do_lookup ⟨0, 1, []⟩ ⟨.ok 5, .ok ⟨42, 1⟩, true⟩).inodes }
      ⟨.ok 6, .ok ⟨42, 1⟩, true⟩).e.generation =
      (do_lookup ⟨0, 1, []⟩ ⟨.ok 5, .ok ⟨42, 1⟩, true⟩).e.generation ∧
    (do_lookup { Fuser.mk 0 1 [] with
        inodes := (do_lookup ⟨0, 1, []⟩ ⟨.ok 5, .ok ⟨42, 1⟩, true⟩).inodes }
      ⟨.ok 6, .ok ⟨42, 1⟩, true⟩).fate = .closed ∧
    nlookupOf (do_lookup { Fuser.mk 0 1 [] with
        inodes := (do_lookup ⟨0, 1, []⟩ ⟨.ok 5, .ok ⟨42, 1⟩, true⟩).inodes }
      ⟨.ok 6, .ok ⟨42, 1⟩, true⟩).inodes 42 =
      nlookupOf (do_lookup ⟨0, 1, []⟩ ⟨.ok 5, .ok ⟨42, 1⟩, true⟩).inodes 42 + 1 ∧
    ∃ t1 t2,
      forget_one (do_lookup { Fuser.mk 0 1 [] with
          inodes := (do_lookup ⟨0, 1, []⟩ ⟨.ok 5, .ok ⟨42, 1⟩, true⟩).inodes }
        ⟨.ok 6, .ok ⟨42, 1⟩, true⟩).inodes 42 1 = some (.ok t1) ∧
      forget_one t1 42 1 = some (.ok t2) ∧
      findIno t2 42 = none :=
  lookup_idempotent_spec ⟨0, 1, []⟩ ⟨.ok 5, .ok ⟨42, 1⟩, true⟩
    ⟨.ok 6, .ok ⟨42, 1⟩, true⟩ 5 6 42 rfl (by decide) (by decide)
    rfl rfl rfl rfl rfl rfl

/-! ### open -/

def O_WRONLY : Nat := 1
def O_RDWR : Nat := 2
def O_ACCMODE : Nat := 3
def O_APPEND : Nat := 0x400
def O_DIRECT : Nat := 0x4000
def O_NOFOLLOW : Nat := 0x20000

/-- Bitwise complement of a flag mask inside a 32-bit C `int`
(`~y` for `y < 2^32`). -/
def cnot32 (y : Nat) : Nat := 2 ^ 32 - 1 - y

/-- Modelled from the spec: `ino_to_inodeptr` (the node-id-to-record
cast lives in the fuser header, not under the mirror backend sources).
Per the specification's `lookup_by_handle`, it dereferences a wire
node-id to its table record; node-ids are the table keys here. -/
def ino_to_inodeptr (f : Fuser) (nodeid : Nat) : Option Inode :=
  findIno f.inodes nodeid

/-- Result of the open handler: the reply header, the kernel file handle
stored in the reply, the flags passed to `open(2)` on `/proc/self/fd/<fd>`
(`none` if reopening was not reached), and the updated table. -/
structure OpenOut where
  hdr : OutHeader
  fh : Option Nat
  usedFlags : Option Nat
  inodes : InodeTable
deriving DecidableEq

/-- `fuser_mirror_open`.  The source initialises `fi.flags` to
`O_RDWR | O_DIRECT`; the request's `in_open->flags` (the `inflags`
argument) is never read.  `env` is the outcome of the `open(2)` on
`/proc/self/fd/<fd>`. -/
def fuser_mirror_open (f : Fuser) (hdr : OutHeader) (nodeid : Nat)
    (inflags : Nat) (env : SysRes Nat) : OpenOut :=
  let flags0 := O_RDWR ||| O_DIRECT
  match ino_to_inodeptr f nodeid with
  | none =>
    { hdr := { hdr with error := -(EINVAL : Int) }, fh := none,
      usedFlags := none, inodes := f.inodes }
  | some i =>
    -- writeback cache: write-only reopened read-write
    let flags1 := if f.timeout ≠ 0 ∧ flags0 &&& O_ACCMODE = O_WRONLY
      then (flags0 &&& cnot32 O_ACCMODE) ||| O_RDWR else flags0
    -- writeback cache: O_APPEND handled by the kernel
    let flags2 := if f.timeout ≠ 0 ∧ flags1 &&& O_APPEND ≠ 0
      then flags1 &&& cnot32 O_APPEND else flags1
    match env with
    | .err en =>
      { hdr := { hdr with error := -(en : Int) }, fh := none,
        usedFlags := some (flags2 &&& cnot32 O_NOFOLLOW), inodes := f.inodes }
    | .ok fd =>
      { hdr := hdr, fh := some fd,
        usedFlags := some (flags2 &&& cnot32 O_NOFOLLOW),
        inodes := updateIno f.inodes nodeid { i with nopen := i.nopen + 1 } }

/-- Counterexample to C4: a write-only request with `O_APPEND` under a
non-zero metadata timeout.  The claim predicts the reopen uses the
request's flags rewritten to `O_RDWR`; the code opens with the hardcoded
`O_RDWR | O_DIRECT` instead, because `fi.flags` is initialised to that
constant and the request flags are never consulted. -/
theorem open_request_flags_ignored :
    (fuser_mirror_open ⟨1, 1, [(42, ⟨42, 1, 5, 1, 0, 0⟩)]⟩ ⟨0, 0⟩ 42
      (O_WRONLY ||| O_APPEND) (.ok 9)).usedFlags = some (O_RDWR ||| O_DIRECT) ∧
    (O_RDWR ||| O_DIRECT) ≠ O_RDWR := by
  constructor
  · rfl
  · decide

/-- C4 as amended: for every open request on a known inode, the reopen
through `/proc/self/fd/<fd>` uses the hardcoded flags
`O_RDWR | O_DIRECT` — the request's flags are ignored, so the
`O_NOFOLLOW` mask and the metadata-timeout rewrites have no effect — the
resulting fd is stored as the reply file handle, and `nopen` increases
by exactly one. -/
theorem open_hardcoded_flags_spec (f : Fuser) (hdr : OutHeader)
    (nodeid inflags fd : Nat) (i : Inode)
    (hi : findIno f.inodes nodeid = some i) :
    (fuser_mirror_open f hdr nodeid inflags (.ok fd)).usedFlags =
      some (O_RDWR ||| O_DIRECT) ∧
    (fuser_mirror_open f hdr nodeid inflags (.ok fd)).fh = some fd ∧
    (fuser_mirror_open f hdr nodeid inflags (.ok fd)).hdr = hdr ∧
    findIno (fuser_mirror_open f hdr nodeid inflags (.ok fd)).inodes nodeid =
      some { i with nopen := i.nopen + 1 } := by
  have hA : (O_RDWR ||| O_DIRECT) &&& O_ACCMODE ≠ O_WRONLY := by decide
  have hB : (O_RDWR ||| O_DIRECT) &&& O_APPEND = 0 := by decide
  have hC : (O_RDWR ||| O_DIRECT) &&& cnot32 O_NOFOLLOW =
      O_RDWR ||| O_DIRECT := by decide
  refine ⟨?_, ?_, ?_, ?_⟩ <;>
    simp [fuser_mirror_open, ino_to_inodeptr, hi, hA, hB, hC,
      findIno_updateIno_self f.inodes nodeid i _ hi]

/-- Witness for the amended C4 at a concrete state. -/
theorem open_hardcoded_flags_spec_witness :
    (fuser_mirror_open ⟨1, 1, [(42, ⟨42, 1, 5, 1, 3, 0⟩)]⟩ ⟨0, 0⟩ 42 0
      (.ok 9)).usedFlags = some (O_RDWR ||| O_DIRECT) ∧
    (fuser_mirror_open ⟨1, 1, [(42, ⟨42, 1, 5, 1, 3, 0⟩)]⟩ ⟨0, 0⟩ 42 0
      (.ok 9)).fh = some 9 ∧
    (fuser_mirror_open ⟨1, 1, [(42, ⟨42, 1, 5, 1, 3, 0⟩)]⟩ ⟨0, 0⟩ 42 0
      (.ok 9)).hdr = ⟨0, 0⟩ ∧
    findIno (fuser_mirror_open ⟨1, 1, [(42, ⟨42, 1, 5, 1, 3, 0⟩)]⟩ ⟨0, 0⟩ 42 0
      (.ok 9)).inodes 42 = some ⟨42, 1, 5, 1, 4, 0⟩ :=
  open_hardcoded_flags_spec ⟨1, 1, [(42, ⟨42, 1, 5, 1, 3, 0⟩)]⟩ ⟨0, 0⟩ 42 0 9
    ⟨42, 1, 5, 1, 3, 0⟩ (by decide)

/-! ### read / write submission -/

/-- The kernel async-I/O opcode placed in the control block. -/
inductive AioOpcode
  | preadv
  | pwritev
deriving DecidableEq

/-- Result of a read/write handler: the value returned to the HAL
(0 = SYNC_DONE, `EWOULDBLOCK` = ASYNC_PENDING), the reply header, and
the opcode of the submitted control block if any. -/
structure RwOut where
  ret : Nat
  hdr : OutHeader
  submitted : Option AioOpcode
deriving DecidableEq

/-- `fuser_mirror_read`: build a `PREADV` control block and submit it;
on `io_submit` failure set the reply error to `-errno` and complete
synchronously, else return `EWOULDBLOCK`. -/
def fuser_mirror_read (hdr : OutHeader) (submitRes : SysRes Unit) : RwOut :=
  match submitRes with
  | .err en =>
    { ret := 0, hdr := { hdr with error := -(en : Int) }, submitted := none }
  | .ok _ =>
    { ret := EWOULDBLOCK, hdr := hdr, submitted := some .preadv }

/-- `fuser_mirror_write`: as `fuser_mirror_read` with a `PWRITEV`
control block. -/
def fuser_mirror_write (hdr : OutHeader) (submitRes : SysRes Unit) : RwOut :=
  match submitRes with
  | .err en =>
    { ret := 0, hdr := { hdr with error := -(en : Int) }, submitted := none }
  | .ok _ =>
    { ret := EWOULDBLOCK, hdr := hdr, submitted := some .pwritev }

/-- C5: for read and write, a failed submission sets the reply error to
the negative errno and returns SYNC_DONE (0); a successful submission
returns ASYNC_PENDING (`EWOULDBLOCK`) with the reply error left zero. -/
theorem rw_submit_spec (hdr : OutHeader) (r : SysRes Unit) (en : Nat)
    (hhdr : hdr.error = 0) :
    (r = .err en →
      (fuser_mirror_read hdr r).ret = 0 ∧
      (fuser_mirror_read hdr r).hdr.error = -(en : Int) ∧
      (fuser_mirror_write hdr r).ret = 0 ∧
      (fuser_mirror_write hdr r).hdr.error = -(en : Int)) ∧
    (r = .ok () →
      (fuser_mirror_read hdr r).ret = EWOULDBLOCK ∧
      (fuser_mirror_read hdr r).hdr.error = 0 ∧
      (fuser_mirror_write hdr r).ret = EWOULDBLOCK ∧
      (fuser_mirror_write hdr r).hdr.error = 0) := by
  constructor
  · rintro rfl
    simp [fuser_mirror_read, fuser_mirror_write]
  · rintro rfl
    simp [fuser_mirror_read, fuser_mirror_write, hhdr]

/-- Witness for C5: a failing and a succeeding submission at a concrete
header. -/
theorem rw_submit_spec_witness :
    (fuser_mirror_read ⟨0, 5⟩ (.err ENOMEM)).ret = 0 ∧
    (fuser_mirror_read ⟨0, 5⟩ (.err ENOMEM)).hdr.error = -(ENOMEM : Int) ∧
    (fuser_mirror_write ⟨0, 5⟩ (.ok ())).ret = EWOULDBLOCK ∧
    (fuser_mirror_write ⟨0, 5⟩ (.ok ())).hdr.error = 0 := by
  have h1 := (rw_submit_spec ⟨0, 5⟩ (.err ENOMEM) ENOMEM rfl).1 rfl
  have h2 := (rw_submit_spec ⟨0, 5⟩ (.ok ()) ENOMEM rfl).2 rfl
  exact ⟨h1.1, h1.2.1, h2.2.2.1, h2.2.2.2⟩

/-! ### create -/

/-- Oracle for `fuser_mirror_create`: the `openat(..., flags | O_CREAT,
mode)` outcome and the oracle of the subsequent `do_lookup`. -/
structure CreateEnv where
  openatRes : SysRes Nat
  lenv : LookupEnv
deriving DecidableEq

/-- Result of the create handler. -/
structure CreateOut where
  hdr : OutHeader
  f : Fuser
  fh : Option Nat
deriving DecidableEq

/-- `fuser_mirror_create`.  The outer `Option` is `none` only when the
node-id returned by a successful lookup dangles (unreachable).  Note the
two failure branches assign the POSITIVE errno to `out_hdr->error`,
unlike every other handler. -/
def fuser_mirror_create (f : Fuser) (hdr : OutHeader) (nodeid : Nat)
    (env : CreateEnv) : Option CreateOut :=
  match ino_to_inodeptr f nodeid with
  | none =>
    some { hdr := { hdr with error := -(EINVAL : Int) }, f := f, fh := none }
  | some _ip =>
    match env.openatRes with
    | .err en =>
      -- source: `out_hdr->error = err;` (positive)
      some { hdr := { hdr with error := (en : Int) }, f := f, fh := none }
    | .ok fd =>
      let r := do_lookup f env.lenv
      let f' := { f with inodes := r.inodes }
      if r.err ≠ 0 then
        -- source: `out_hdr->error = err;` (positive)
        some { hdr := { hdr with error := (r.err : Int) }, f := f', fh := none }
      else
        match findIno r.inodes r.e.ino with
        | none => none
        | some i =>
          let i' : Inode := { i with nopen := i.nopen + 1 }
          some { hdr := hdr,
                 f := { f' with inodes := updateIno r.inodes r.e.ino i' },
                 fh := some fd }

/-- C9 (code bug): on both failure branches of create — the backing
`openat` failing, or the subsequent lookup failing — the reply header
error is assigned the POSITIVE errno, not its negative as the claim (and
every other handler) requires. -/
theorem create_positive_errno (f : Fuser) (hdr : OutHeader) (nodeid : Nat)
    (env : CreateEnv) (en : Nat) (ip : Inode)
    (hip : findIno f.inodes nodeid = some ip) (hen : 0 < en) :
    (env.openatRes = .err en →
      ∃ out, fuser_mirror_create f hdr nodeid env = some out ∧
        out.hdr.error = (en : Int) ∧ out.hdr.error ≠ -(en : Int)) ∧
    (∀ fd, env.openatRes = .ok fd → (do_lookup f env.lenv).err = en →
      ∃ out, fuser_mirror_create f hdr nodeid env = some out ∧
        out.hdr.error = (en : Int) ∧ out.hdr.error ≠ -(en : Int)) := by
  have hne : (en : Int) ≠ -(en : Int) := by
    have h0 : (0 : Int) < (en : Int) := by exact_mod_cast hen
    omega
  constructor
  · intro hopen
    refine ⟨⟨{ hdr with error := (en : Int) }, f, none⟩, ?_, rfl, hne⟩
    simp [fuser_mirror_create, ino_to_inodeptr, hip, hopen]
  · intro fd hopen hlerr
    have henz : en ≠ 0 := Nat.pos_iff_ne_zero.mp hen
    refine ⟨⟨{ hdr with error := (en : Int) },
      { f with inodes := (do_lookup f env.lenv).inodes }, none⟩, ?_, rfl, hne⟩
    simp [fuser_mirror_create, ino_to_inodeptr, hip, hopen, hlerr, henz]

/-- Witness for C9: an `openat` failure with `EACCES` yields reply error
`+13`, not `-13`. -/
theorem create_positive_errno_witness :
    ∃ out, fuser_mirror_create ⟨0, 1, [(1, ⟨1, 1, 3, 1, 0, 0⟩)]⟩ ⟨0, 0⟩ 1
      ⟨.err EACCES, ⟨.err 0, .err 0, true⟩⟩ = some out ∧
      out.hdr.error = (EACCES : Int) ∧ out.hdr.error ≠ -(EACCES : Int) :=
  (create_positive_errno ⟨0, 1, [(1, ⟨1, 1, 3, 1, 0, 0⟩)]⟩ ⟨0, 0⟩ 1
    ⟨.err EACCES, ⟨.err 0, .err 0, true⟩⟩ EACCES ⟨1, 1, 3, 1, 0, 0⟩
    (by decide) (by decide)).1 rfl

/-! ### Directory reading -/

theorem do_lookup_adopt (f : Fuser) (env : LookupEnv) (newfd k : Nat)
    (i : Inode) (hk : findIno f.inodes k = some i) (hfd : ¬ 0 < i.fd)
    (hopen : env.openatRes = .ok newfd)
    (hstat : env.fstatRes = .ok ⟨k, f.src_dev⟩)
    (halloc : env.getsertOk = true)
    (hroot : k ≠ FUSE_ROOT_ID) :
    do_lookup f env =
      { err := 0,
        e := { ino := k, generation := i.generation, attr := ⟨k, f.src_dev⟩,
               attr_timeout := f.timeout, entry_timeout := f.timeout },
        inodes := updateIno f.inodes k
          { i with src_ino := k, src_dev := f.src_dev,
                   nlookup := i.nlookup + 1, fd := (newfd : Int) },
        tableLocked := false, fate := .adopted } := by
  simp [do_lookup, hopen, hstat, halloc, hroot, getsert, hk, emptyEntry, hfd]

/-- One directory entry as delivered by `readdir(3)`, together with the
room its encoding takes in the reply buffer: `width` is the byte count
`fuse_add_direntry(_plus)` reports when the entry fits. -/
structure DirEnt where
  d_name : String
  d_ino : Nat
  d_type : Nat
  d_off : Nat
  width : Nat
deriving DecidableEq

def is_dot_or_dotdot (name : String) : Bool :=
  name == "." || name == ".."

/-- Modelled from the spec: `fuse_add_direntry` / `fuse_add_direntry_plus`
(the dirent encoders live in the dpfs_fuse library, not under the mirror
backend sources).  Per the specification's framing they write the entry
when it fits in the remaining buffer and report "no room" (0) otherwise. -/
def add_direntry (width rem : Nat) : Nat :=
  if width ≤ rem then width else 0

/-- Result of the readdir loop: the server may halt (via the
protocol-fatal branch of `forget_one`), a node-id may dangle (outside
the defined behaviour), or the loop ends with the state, the pending
errno (`0` if none), the remaining buffer space, the number of entries
written and the final stream offset. -/
inductive LoopRes
  | halted
  | stuck
  | out (f : Fuser) (err rem count offset : Nat)
deriving DecidableEq

/-- The `while (1)` loop of `fuser_mirror_readdir`.  The stream is the
entries `readdir(3)` will deliver from the current position, each with
the oracle of its plus-lookup; `endRes` tells how the stream ends after
them (`some errno`: readdir failure, `none`: end of stream). -/
def readdirLoop (f : Fuser) (plus : Bool)
    (entries : List (DirEnt × LookupEnv)) (endRes : Option Nat)
    (rem count offset : Nat) : LoopRes :=
  match entries with
  | [] =>
    match endRes with
    | some en => .out f en rem count offset
    | none => .out f 0 rem count offset
  | (ent, lenv) :: rest =>
    let offset := ent.d_off
    if is_dot_or_dotdot ent.d_name then
      readdirLoop f plus rest endRes rem count offset
    else if plus then
      let r := do_lookup f lenv
      if r.err ≠ 0 then
        .out { f with inodes := r.inodes } r.err rem count offset
      else
        let f1 : Fuser := { f with inodes := r.inodes }
        let written := add_direntry ent.width rem
        if written = 0 then
          match forget_one f1.inodes r.e.ino 1 with
          | none => .stuck
          | some .halt => .halted
          | some (.ok t) => .out { f1 with inodes := t } 0 rem count offset
        else
          readdirLoop f1 plus rest endRes (rem - written) (count + 1) offset
    else
      let written := add_direntry ent.width rem
      if written = 0 then .out f 0 rem count offset
      else readdirLoop f plus rest endRes (rem - written) (count + 1) offset

/-- Result of the readdir handler. -/
structure ReaddirOut where
  f : Fuser
  hdr : OutHeader
  count : Nat
  rem : Nat
deriving DecidableEq

/-- `fuser_mirror_readdir` (both variants, selected by `plus`): run the
loop from `rem = size`, then report the pending error only when nothing
was stored yet (`rem` still equals the requested size), else reply
success with the collected bytes added to the header length. -/
def fuser_mirror_readdir (f : Fuser) (hdr : OutHeader) (plus : Bool)
    (entries : List (DirEnt × LookupEnv)) (endRes : Option Nat)
    (size offset : Nat) : Option ReaddirOut :=
  match readdirLoop f plus entries endRes size 0 offset with
  | .halted => none
  | .stuck => none
  | .out f' err rem _count _off =>
    if err ≠ 0 ∧ rem = size then
      some ⟨f', { hdr with error := -(err : Int) }, _count, rem⟩
    else
      some ⟨f', { hdr with len := hdr.len + (size - rem) }, _count, rem⟩

/-- Loop invariant: the remaining space never grows, and writing at
least one entry strictly shrinks it. -/
theorem readdirLoop_rem (plus : Bool)
    (entries : List (DirEnt × LookupEnv)) (endRes : Option Nat)
    (f : Fuser) (rem count offset : Nat) (f' : Fuser)
    (err rem' count' off' : Nat)
    (h : readdirLoop f plus entries endRes rem count offset =
      .out f' err rem' count' off') :
    rem' ≤ rem ∧ count ≤ count' ∧ (count < count' → rem' < rem) := by
  induction entries generalizing f rem count offset with
  | nil =>
    simp only [readdirLoop] at h
    cases endRes <;> cases h <;>
      exact ⟨le_rfl, le_rfl, fun hc => absurd hc (lt_irrefl _)⟩
  | cons p rest ih =>
    obtain ⟨ent, lenv⟩ := p
    simp only [readdirLoop] at h
    by_cases hdot : is_dot_or_dotdot ent.d_name = true
    · rw [if_pos hdot] at h
      exact ih f rem count ent.d_off h
    · rw [if_neg hdot] at h
      have hwr : ∀ hw : ¬ add_direntry ent.width rem = 0,
          rem - add_direntry ent.width rem < rem := by
        intro hw
        rw [add_direntry] at hw ⊢
        by_cases hle : ent.width ≤ rem
        · rw [if_pos hle] at hw ⊢
          exact Nat.sub_lt (Nat.lt_of_lt_of_le (Nat.pos_of_ne_zero hw) hle)
            (Nat.pos_of_ne_zero hw)
        · exact absurd (if_neg hle) hw
      by_cases hplus : plus = true
      · rw [if_pos hplus] at h
        by_cases herr : (do_lookup f lenv).err ≠ 0
        · rw [if_pos herr] at h
          cases h
          exact ⟨le_rfl, le_rfl, fun hc => absurd hc (lt_irrefl _)⟩
        · rw [if_neg herr] at h
          by_cases hw : add_direntry ent.width rem = 0
          · rw [if_pos hw] at h
            split at h <;> cases h
            exact ⟨le_rfl, le_rfl, fun hc => absurd hc (lt_irrefl _)⟩
          · rw [if_neg hw] at h
            obtain ⟨h1, h2, _⟩ := ih _ _ _ _ h
            exact ⟨le_trans h1 (Nat.sub_le _ _), le_trans (Nat.le_succ _) h2,
              fun _ => Nat.lt_of_le_of_lt h1 (hwr hw)⟩
      · rw [if_neg hplus] at h
        by_cases hw : add_direntry ent.width rem = 0
        · rw [if_pos hw] at h
          cases h
          exact ⟨le_rfl, le_rfl, fun hc => absurd hc (lt_irrefl _)⟩
        · rw [if_neg hw] at h
          obtain ⟨h1, h2, _⟩ := ih _ _ _ _ h
          exact ⟨le_trans h1 (Nat.sub_le _ _), le_trans (Nat.le_succ _) h2,
            fun _ => Nat.lt_of_le_of_lt h1 (hwr hw)⟩

/-- C6: in readdir and readdirplus an error arising after at least one
entry has been written is not reported — the reply is a success whose
length covers the entries collected so far; an error lands in the reply
header only when no entry has been written yet. -/
theorem readdir_error_only_when_no_entries (f : Fuser) (hdr : OutHeader)
    (plus : Bool) (entries : List (DirEnt × LookupEnv)) (endRes : Option Nat)
    (size offset : Nat) (o : ReaddirOut) (hhdr : hdr.error = 0)
    (h : fuser_mirror_readdir f hdr plus entries endRes size offset = some o) :
    (1 ≤ o.count → o.hdr.error = 0 ∧ o.hdr.len = hdr.len + (size - o.rem)) ∧
    (o.hdr.error ≠ 0 → o.count = 0) := by
  rw [fuser_mirror_readdir] at h
  split at h
  · exact absurd h (by simp)
  · exact absurd h (by simp)
  · rename_i f' err rem _count _off heq
    have hinv := readdirLoop_rem plus entries endRes f size 0 offset
      f' err rem _count _off heq
    split at h
    · rename_i hc
      cases h
      constructor
      · intro h1
        exfalso
        have := hinv.2.2 (Nat.lt_of_lt_of_le Nat.zero_lt_one h1)
        omega
      · intro _
        by_contra hc0
        have := hinv.2.2 (Nat.pos_of_ne_zero hc0)
        omega
    · cases h
      exact ⟨fun _ => ⟨hhdr, rfl⟩, fun hc => absurd hhdr hc⟩

/-- Witness for C6: a two-phase stream — one entry then a readdir
failure — returns success with the one entry accounted in the length. -/
theorem readdir_error_only_when_no_entries_witness :
    (1 ≤ (1 : Nat) →
      (ReaddirOut.mk ⟨0, 1, []⟩ ⟨0, 10⟩ 1 90).hdr.error = 0 ∧
      (ReaddirOut.mk ⟨0, 1, []⟩ ⟨0, 10⟩ 1 90).hdr.len =
        (OutHeader.mk 0 0).len + (100 - (ReaddirOut.mk ⟨0, 1, []⟩ ⟨0, 10⟩ 1 90).rem)) ∧
    ((ReaddirOut.mk ⟨0, 1, []⟩ ⟨0, 10⟩ 1 90).hdr.error ≠ 0 →
      (ReaddirOut.mk ⟨0, 1, []⟩ ⟨0, 10⟩ 1 90).count = 0) :=
  readdir_error_only_when_no_entries ⟨0, 1, []⟩ ⟨0, 0⟩ false
    [(⟨"a", 10, 8, 1, 10⟩, ⟨.err 0, .err 0, true⟩)] (some EIO) 100 0
    ⟨⟨0, 1, []⟩, ⟨0, 10⟩, 1, 90⟩ rfl (by decide)

/-- A successful lookup followed by a compensating `forget(ino, 1)`
restores the inode's lookup count and erases a record the lookup freshly
created. -/
theorem do_lookup_forget_roundtrip (f : Fuser) (env : LookupEnv)
    (newfd : Nat) (st : Stat)
    (hopen : env.openatRes = .ok newfd)
    (hstat : env.fstatRes = .ok st)
    (hdev : st.st_dev = f.src_dev) (hroot : st.st_ino ≠ FUSE_ROOT_ID)
    (halloc : env.getsertOk = true) :
    (do_lookup f env).err = 0 ∧ (do_lookup f env).e.ino = st.st_ino ∧
    ∃ t, forget_one (do_lookup f env).inodes st.st_ino 1 = some (.ok t) ∧
      nlookupOf t st.st_ino = nlookupOf f.inodes st.st_ino ∧
      (findIno f.inodes st.st_ino = none → findIno t st.st_ino = none) := by
  have hst : env.fstatRes = .ok ⟨st.st_ino, f.src_dev⟩ := by
    rw [hstat, ← hdev]
  cases hfind : findIno f.inodes st.st_ino with
  | none =>
    have e1 := do_lookup_fresh f env newfd st.st_ino hfind hopen hst halloc hroot
    have hcons : findIno ((st.st_ino, (⟨0, 0, 0, 0, 0, 0⟩ : Inode)) :: f.inodes)
        st.st_ino = some ⟨0, 0, 0, 0, 0, 0⟩ := by simp [findIno_cons]
    have hf1 : findIno (do_lookup f env).inodes st.st_ino =
        some ⟨st.st_ino, f.src_dev, (newfd : Int), 1, 0, 0⟩ := by
      rw [e1]
      exact findIno_updateIno_self _ st.st_ino _ _ hcons
    obtain ⟨t, hfg, hzt, _⟩ :=
      (forget_one_eval _ st.st_ino 1 _ hf1).2 (Nat.le_refl 1)
    have hnone : findIno t st.st_ino = none := hzt rfl
    refine ⟨by rw [e1], by rw [e1], t, hfg, ?_, fun _ => hnone⟩
    simp [nlookupOf, hfind, hnone]
  | some i =>
    by_cases hfd : 0 < i.fd
    · have e1 := do_lookup_existing f env newfd st.st_ino i hfind hfd hopen
        hst halloc hroot
      have hf1 : findIno (do_lookup f env).inodes st.st_ino =
          some { i with nlookup := i.nlookup + 1 } := by
        rw [e1]
        exact findIno_updateIno_self _ st.st_ino _ _ hfind
      obtain ⟨t, hfg, hzt, hnzt⟩ :=
        (forget_one_eval _ st.st_ino 1 _ hf1).2 (by simp)
      refine ⟨by rw [e1], by rw [e1], t, hfg, ?_,
        fun hc => absurd hc (by simp)⟩
      by_cases hz : i.nlookup = 0
      · have hnone : findIno t st.st_ino = none := hzt (by simp [hz])
        simp [nlookupOf, hfind, hnone, hz]
      · have hsome := hnzt (by simpa using hz)
        simp [nlookupOf, hfind, hsome]
    · have e1 := do_lookup_adopt f env newfd st.st_ino i hfind hfd hopen
        hst halloc hroot
      have hf1 : findIno (do_lookup f env).inodes st.st_ino =
          some { i with src_ino := st.st_ino, src_dev := f.src_dev,
                        nlookup := i.nlookup + 1, fd := (newfd : Int) } := by
        rw [e1]
        exact findIno_updateIno_self _ st.st_ino _ _ hfind
      obtain ⟨t, hfg, hzt, hnzt⟩ :=
        (forget_one_eval _ st.st_ino 1 _ hf1).2 (by simp)
      refine ⟨by rw [e1], by rw [e1], t, hfg, ?_,
        fun hc => absurd hc (by simp)⟩
      by_cases hz : i.nlookup = 0
      · have hnone : findIno t st.st_ino = none := hzt (by simp [hz])
        simp [nlookupOf, hfind, hnone, hz]
      · have hsome := hnzt (by simpa using hz)
        simp [nlookupOf, hfind, hsome]

/-- C7: when the dirent encoder of readdirplus reports no room for an
entry whose plus-lookup already succeeded, the loop stops writing and
issues a compensating `forget(ino, 1)`: the entry's inode ends with the
lookup count it had before the failed entry, and a record freshly
created by that lookup is erased again. -/
theorem readdirplus_forget_compensation (f : Fuser) (ent : DirEnt)
    (lenv : LookupEnv) (rest : List (DirEnt × LookupEnv))
    (endRes : Option Nat) (rem count offset : Nat) (newfd : Nat) (st : Stat)
    (hdot : is_dot_or_dotdot ent.d_name = false)
    (hopen : lenv.openatRes = .ok newfd)
    (hstat : lenv.fstatRes = .ok st)
    (hdev : st.st_dev = f.src_dev) (hroot : st.st_ino ≠ FUSE_ROOT_ID)
    (halloc : lenv.getsertOk = true)
    (hfull : rem < ent.width) :
    ∃ f', readdirLoop f true ((ent, lenv) :: rest) endRes rem count offset =
        .out f' 0 rem count ent.d_off ∧
      nlookupOf f'.inodes st.st_ino = nlookupOf f.inodes st.st_ino ∧
      (findIno f.inodes st.st_ino = none →
        findIno f'.inodes st.st_ino = none) := by
  obtain ⟨herr, hino, t, hfg, hnl, habs⟩ :=
    do_lookup_forget_roundtrip f lenv newfd st hopen hstat hdev hroot halloc
  refine ⟨{ f with inodes := t }, ?_, hnl, habs⟩
  have hw0 : add_direntry ent.width rem = 0 := by
    rw [add_direntry, if_neg (Nat.not_le.mpr hfull)]
  simp only [readdirLoop]
  rw [← hino] at hfg
  simp [hdot, herr, hw0, hfg]

/-- Witness for C7: a buffer too small for a 50-byte entry on an empty
table: the lookup-created record is erased again and the loop returns
the buffer untouched. -/
theorem readdirplus_forget_compensation_witness :
    ∃ f', readdirLoop ⟨0, 1, []⟩ true
        [(⟨"x", 7, 8, 3, 50⟩, ⟨.ok 5, .ok ⟨42, 1⟩, true⟩)] none 10 0 0 =
        .out f' 0 10 0 3 ∧
      nlookupOf f'.inodes 42 = nlookupOf ([] : InodeTable) 42 ∧
      (findIno ([] : InodeTable) 42 = none → findIno f'.inodes 42 = none) :=
  readdirplus_forget_compensation ⟨0, 1, []⟩ ⟨"x", 7, 8, 3, 50⟩
    ⟨.ok 5, .ok ⟨42, 1⟩, true⟩ [] none 10 0 0 5 ⟨42, 1⟩
    (by decide) rfl rfl rfl (by decide) rfl (by decide)

end DPFS
